import Mathlib

/-!
# Verification of the twitter-backend-challenge core

A shallow embedding, in Lean 4, of the data model and the operations of the
social-network backend (visibility resolution, cursor pagination, the follow
state machine, the feed and by-author assemblers, and the realtime message
relay), together with theorems settling the frozen claims about them.

Conventions of the embedding:
* record ids and timestamps are `Nat` (Prisma UUIDs / DateTime become opaque
  ordered keys; `id asc` and `createdAt desc` orderings are the orders on `Nat`);
* the relational store is a `DB` structure of lists, one per table, in insert
  order; Prisma `findUnique` / `findFirst` become `List.find?`, `findMany`
  filters become `List.filter`, `orderBy` becomes an insertion sort by the
  query's key, and `cursor` / `skip` / `take` become the slice combinators below;
* the external `class-validator` `isUUID` check is the parameter
  `validId : Nat → Bool` (an oracle for the out-of-scope validation library);
* the external S3 presigned-url signer is the parameter `sign : String → String`;
* a thrown service exception is an `Except.error` carrying the `Err` kind the
  source constructs; functions that may mutate the store are state passing and
  return the (possibly unchanged) `DB` next to the result.
-/

namespace Twitter

/-- `Visibility` enum of the Prisma schema as used by the code
(`PUBLIC`, `PRIVATE`, `HIDDEN`). -/
inductive Visibility where
  | PUBLIC
  | PRIVATE
  | HIDDEN
  deriving DecidableEq, Repr

/-- `ReactionAction` enum (`LIKE`, `RETWEET`). -/
inductive ReactionAction where
  | LIKE
  | RETWEET
  deriving DecidableEq, Repr

/-- A row of the `User` table; the columns the verified operations read
(identity, visibility, profile picture storage key). -/
structure User where
  id : Nat
  visibility : Visibility
  profilePicture : Option String
  deriving DecidableEq, Repr

/-- A row of the `Follow` table: a directed edge `followerId -> followedId`
with its own primary key. -/
structure Follow where
  id : Nat
  followerId : Nat
  followedId : Nat
  deriving DecidableEq, Repr

/-- A row of the `Post` table. `parentPostId = none` is a top-level post,
`some p` a comment on post `p`. -/
structure Post where
  id : Nat
  authorId : Nat
  content : String
  images : List String
  parentPostId : Option Nat
  createdAt : Nat
  deriving DecidableEq, Repr

/-- A row of the `Reaction` table. -/
structure Reaction where
  id : Nat
  authorId : Nat
  postId : Nat
  action : ReactionAction
  deriving DecidableEq, Repr

/-- A row of the `Message` table (columns the relay writes). -/
structure Message where
  senderId : Nat
  receiverId : Nat
  content : String
  deriving DecidableEq, Repr

/-- The relational store: one list per table, rows in insertion order. -/
structure DB where
  users : List User
  follows : List Follow
  posts : List Post
  reactions : List Reaction
  messages : List Message
  deriving DecidableEq, Repr

/-- The typed error taxonomy of `@utils` exceptions as thrown by the services
(`ValidationException`, `NotFoundException`, `ConflictException`,
`ForbiddenException`, `InvalidUserException`, `UnauthorizedException`). -/
inductive Err where
  | validation
  | notFound (resource : String)
  | conflict (msg : String)
  | forbidden
  | invalidUser
  | unauthorized (msg : String)
  deriving DecidableEq, Repr

namespace UserRepository

/-- `UserRepositoryImpl.isUserPublicOrFollowed`: look the author up by id;
absent author resolves to `false`; `PUBLIC` is `true`; `HIDDEN` is `false`;
otherwise (`PRIVATE`) the result is whether a follow edge
`followerID -> followedID` exists. -/
def isUserPublicOrFollowed (db : DB) (followerID followedID : Nat) : Bool :=
  match db.users.find? (fun u => u.id == followedID) with
  | none => false
  | some author =>
    if author.visibility == Visibility.PUBLIC then true
    else if author.visibility == Visibility.HIDDEN then false
    else (db.follows.find? (fun f => f.followerId == followerID && f.followedId == followedID)).isSome

/-- `UserRepositoryImpl.isUserFollowed`: `false` when the followed user does
not exist, else whether the follow edge exists. -/
def isUserFollowed (db : DB) (followerId followedId : Nat) : Bool :=
  match db.users.find? (fun u => u.id == followedId) with
  | none => false
  | some _ => (db.follows.find? (fun f => f.followerId == followerId && f.followedId == followedId)).isSome

/-- `UserRepositoryImpl.checkIfUserExists`. -/
def checkIfUserExists (db : DB) (userId : Nat) : Bool :=
  (db.users.find? (fun u => u.id == userId)).isSome

end UserRepository

/-- A follow edge `v -> a` is present in the store. -/
def followEdge (db : DB) (v a : Nat) : Prop :=
  ∃ f ∈ db.follows, f.followerId = v ∧ f.followedId = a

instance (db : DB) (v a : Nat) : Decidable (followEdge db v a) := by
  unfold followEdge
  infer_instance

section VisibilityResolver

/-- Auxiliary: `find?` by id on a table with `Nodup` ids finds the unique row
with that id. -/
theorem find?_user_eq_of_nodup {db : DB} {a : Nat} {u : User}
    (hnd : (db.users.map User.id).Nodup) (hu : u ∈ db.users) (hid : u.id = a) :
    db.users.find? (fun w => w.id == a) = some u := by
  rcases hfound : db.users.find? (fun w => w.id == a) with _ | w
  · have hall := List.find?_eq_none.mp hfound u hu
    simp [hid] at hall
  · have hwmem : w ∈ db.users := List.mem_of_find?_eq_some hfound
    have hwid : w.id = a := by simpa using List.find?_some hfound
    have huw : u = w := List.inj_on_of_nodup_map hnd hu hwmem (by rw [hid, hwid])
    rw [hfound, huw]

/-- Unfolding equation of the resolver when the author lookup misses. -/
theorem isUserPublicOrFollowed_of_find?_none {db : DB} {v a : Nat}
    (hfound : db.users.find? (fun u => u.id == a) = none) :
    UserRepository.isUserPublicOrFollowed db v a = false := by
  unfold UserRepository.isUserPublicOrFollowed
  rw [hfound]

/-- Unfolding equation of the resolver when the author lookup hits. -/
theorem isUserPublicOrFollowed_of_find?_some {db : DB} {v a : Nat} {u : User}
    (hfound : db.users.find? (fun u => u.id == a) = some u) :
    UserRepository.isUserPublicOrFollowed db v a =
      (if u.visibility == Visibility.PUBLIC then true
       else if u.visibility == Visibility.HIDDEN then false
       else (db.follows.find?
          (fun f => f.followerId == v && f.followedId == a)).isSome) := by
  unfold UserRepository.isUserPublicOrFollowed
  rw [hfound]

/-- A follow edge exists iff the repository's `findFirst` lookup hits. -/
theorem followEdge_iff_find? (db : DB) (v a : Nat) :
    followEdge db v a ↔
      (db.follows.find? (fun f => f.followerId == v && f.followedId == a)).isSome = true := by
  rw [List.find?_isSome]
  unfold followEdge
  simp

end VisibilityResolver

/-- `CursorPagination` of `@types`: `{limit?, before?, after?}`. -/
structure CursorPagination where
  limit : Option Nat
  before : Option Nat
  after : Option Nat
  deriving DecidableEq, Repr

/-- The JS truthiness of `options.limit ? … : undefined`: a missing or zero
limit yields an unbounded `take`. -/
def effTake : Option Nat → Option Nat
  | some (n + 1) => some (n + 1)
  | _ => none

/-- Prisma `take` with an optional bound. -/
def takeOpt : Option Nat → List α → List α
  | none, l => l
  | some n, l => l.take n

/-- The last `n` elements of a list (a Prisma negative `take`). -/
def takeLast (n : Nat) (l : List α) : List α :=
  l.drop (l.length - n)

/-- The cursor Prisma uses:
`options.after ? { id: options.after } : options.before ? … : undefined`. -/
def cursorOf (o : CursorPagination) : Option Nat :=
  match o.after with
  | some a => some a
  | none => o.before

/-- Prisma `cursor` / `skip` / `take` applied to an already filtered and
ordered row list, as configured by the paginated queries:
`cursor` at `after ?? before`, `skip: 1` when a cursor is present, and
`take: limit ? (before ? -limit : limit) : undefined` (a negative take reads
the rows that precede the cursor). -/
def prismaSlice (getId : α → Nat) (o : CursorPagination) (l : List α) : List α :=
  let lim := effTake o.limit
  match cursorOf o with
  | none => takeOpt lim l
  | some c =>
    if lim.isSome && o.before.isSome then
      takeLast (lim.getD 0) (l.takeWhile (fun a => getId a != c))
    else
      takeOpt lim ((l.dropWhile (fun a => getId a != c)).drop 1)

/-- An empty row list slices to the empty list. -/
theorem prismaSlice_nil (getId : α → Nat) (o : CursorPagination) :
    prismaSlice getId o ([] : List α) = [] := by
  unfold prismaSlice
  rcases cursorOf o with _ | c <;> rcases effTake o.limit with _ | n <;>
    simp [takeOpt, takeLast]

/-- The feed ordering of `getAllByDatePaginated`:
`orderBy: [{createdAt: desc}, {id: asc}]`. -/
def postKeyLe (a b : Post) : Prop :=
  b.createdAt < a.createdAt ∨ (a.createdAt = b.createdAt ∧ a.id ≤ b.id)

instance : DecidableRel postKeyLe := fun a b =>
  decidable_of_iff (b.createdAt < a.createdAt ∨ (a.createdAt = b.createdAt ∧ a.id ≤ b.id))
    Iff.rfl

instance : IsTotal Post postKeyLe := by
  constructor
  intro a b
  unfold postKeyLe
  rcases Nat.lt_trichotomy a.createdAt b.createdAt with h | h | h
  · exact Or.inr (Or.inl h)
  · rcases Nat.le_total a.id b.id with hid | hid
    · exact Or.inl (Or.inr ⟨h, hid⟩)
    · exact Or.inr (Or.inr ⟨h.symm, hid⟩)
  · exact Or.inl (Or.inl h)

instance : IsTrans Post postKeyLe := by
  constructor
  intro a b c hab hbc
  unfold postKeyLe at hab hbc ⊢
  rcases hab with hab | ⟨hab, hab2⟩ <;> rcases hbc with hbc | ⟨hbc, hbc2⟩
  · exact Or.inl (Nat.lt_trans hbc hab)
  · exact Or.inl (hbc ▸ hab)
  · exact Or.inl (hab ▸ hbc)
  · exact Or.inr ⟨hab.trans hbc, Nat.le_trans hab2 hbc2⟩

/-- `b` comes strictly after `a` in the `(createdAt desc, id asc)` total
order: older, or same timestamp with a larger id. -/
def postStrictAfter (a b : Post) : Prop :=
  b.createdAt < a.createdAt ∨ (a.createdAt = b.createdAt ∧ a.id < b.id)

instance : DecidableRel postStrictAfter := fun a b =>
  decidable_of_iff (b.createdAt < a.createdAt ∨ (a.createdAt = b.createdAt ∧ a.id < b.id))
    Iff.rfl

/-- A non-strict key inequality together with distinct ids is strict. -/
theorem postKeyLe_strict {a b : Post} (h : postKeyLe a b) (hne : b.id ≠ a.id) :
    postStrictAfter a b := by
  unfold postKeyLe at h
  unfold postStrictAfter
  rcases h with h | ⟨h1, h2⟩
  · exact Or.inl h
  · exact Or.inr ⟨h1, Nat.lt_of_le_of_ne h2 (fun he => hne he.symm)⟩

/-- The `where` clause of `PostRepositoryImpl.getAllByDatePaginated`: keep
the posts whose author is `PUBLIC`, or `PRIVATE` and followed by `userId`
(the `followedIds` of the viewer's follow rows). -/
def feedVisiblePosts (db : DB) (userId : Nat) : List Post :=
  let followedIds :=
    (db.follows.filter (fun f => f.followerId == userId)).map Follow.followedId
  db.posts.filter (fun p =>
    match db.users.find? (fun u => u.id == p.authorId) with
    | none => false
    | some author =>
      author.visibility == Visibility.PUBLIC ||
        (author.visibility == Visibility.PRIVATE && followedIds.contains p.authorId))

/-- `ExtendedPostDTO`: the base post with the joined author and the counts
computed from the joined reaction and comment rows. -/
structure ExtendedPost where
  post : Post
  author : Option User
  qtyLikes : Nat
  qtyRetweets : Nat
  qtyComments : Nat
  deriving DecidableEq, Repr

/-- The enrichment `getAllByDatePaginated` performs on each row: join the
author and count `LIKE` reactions, `RETWEET` reactions and comments by
filtering the joined sets. -/
def toExtendedPost (db : DB) (p : Post) : ExtendedPost :=
  { post := p
    author := db.users.find? (fun u => u.id == p.authorId)
    qtyLikes :=
      (db.reactions.filter (fun r => r.postId == p.id && r.action == ReactionAction.LIKE)).length
    qtyRetweets :=
      (db.reactions.filter (fun r => r.postId == p.id && r.action == ReactionAction.RETWEET)).length
    qtyComments := (db.posts.filter (fun c => c.parentPostId == some p.id)).length }

/-- `PostRepositoryImpl.getAllByDatePaginated`: filter the posts visible to
`userId`, order them by `(createdAt desc, id asc)`, apply the cursor slice,
and map each row to its `ExtendedPostDTO`. -/
def getAllByDatePaginated (db : DB) (userId : Nat) (o : CursorPagination) :
    List ExtendedPost :=
  (prismaSlice Post.id o
      (List.insertionSort postKeyLe (feedVisiblePosts db userId))).map
    (toExtendedPost db)

/-- In a sorted row list with distinct ids, every row that the cursor scan
(`dropWhile` to the cursor row, then `skip 1`) leaves is distinct from the
cursor row and strictly after it in the order. -/
theorem dropWhile_cursor_strict (X : Nat) :
    ∀ l : List Post, List.Sorted postKeyLe l → (l.map Post.id).Nodup →
      ∀ x ∈ l, x.id = X →
        ∀ p ∈ (l.dropWhile (fun q => q.id != X)).drop 1,
          p.id ≠ X ∧ postStrictAfter x p := by
  intro l
  induction l with
  | nil =>
    intro _ _ x hx
    simp at hx
  | cons a l ih =>
    intro hsorted hnd x hx hxid p hp
    rw [List.map_cons, List.nodup_cons] at hnd
    by_cases ha : a.id = X
    · have hdw : (a :: l).dropWhile (fun q => q.id != X) = a :: l := by
        rw [List.dropWhile_cons]
        simp [ha]
      rw [hdw, List.drop_succ_cons, List.drop_zero] at hp
      have hxa : x = a := by
        rcases List.mem_cons.mp hx with h | h
        · exact h
        · exfalso
          apply hnd.1
          rw [ha, ← hxid]
          exact List.mem_map_of_mem Post.id h
      subst hxa
      have hle : postKeyLe x p := (List.sorted_cons.mp hsorted).1 p hp
      have hpid : p.id ≠ X := by
        intro hpX
        apply hnd.1
        rw [ha, ← hpX]
        exact List.mem_map_of_mem Post.id hp
      refine ⟨hpid, postKeyLe_strict hle ?_⟩
      rw [ha]
      exact hpid
    · have hdw : (a :: l).dropWhile (fun q => q.id != X)
          = l.dropWhile (fun q => q.id != X) := by
        rw [List.dropWhile_cons]
        simp [ha]
      rw [hdw] at hp
      have hxl : x ∈ l := by
        rcases List.mem_cons.mp hx with h | h
        · exact absurd (h ▸ hxid) ha
        · exact h
      exact ih (List.sorted_cons.mp hsorted).2 hnd.2 x hxl hxid p hp

/-- C2: with a positive `limit` and `after = X` where `X` is the id of a row
of the qualifying (visible) set, `getAllByDatePaginated` returns at most
`limit` records, none of them is the cursor row, and each of them comes
strictly after the cursor row in the `(createdAt desc, id asc)` order. Post
ids are assumed unique in the table (primary key). -/
theorem getAllByDatePaginated_after_spec (db : DB) (userId X n : Nat)
    (hnodup : (db.posts.map Post.id).Nodup)
    (x : Post) (hx : x ∈ feedVisiblePosts db userId) (hxid : x.id = X) :
    (getAllByDatePaginated db userId ⟨some (n + 1), none, some X⟩).length ≤ n + 1 ∧
    ∀ ep ∈ getAllByDatePaginated db userId ⟨some (n + 1), none, some X⟩,
      ep.post.id ≠ X ∧ postStrictAfter x ep.post := by
  have hperm := List.perm_insertionSort postKeyLe (feedVisiblePosts db userId)
  have hsorted : List.Sorted postKeyLe
      (List.insertionSort postKeyLe (feedVisiblePosts db userId)) :=
    List.sorted_insertionSort postKeyLe _
  have hndfeed : ((feedVisiblePosts db userId).map Post.id).Nodup := by
    have hsub : List.Sublist (feedVisiblePosts db userId) db.posts := by
      unfold feedVisiblePosts
      exact List.filter_sublist _
    exact hnodup.sublist (hsub.map Post.id)
  have hndl : ((List.insertionSort postKeyLe (feedVisiblePosts db userId)).map
      Post.id).Nodup := ((hperm.map Post.id).nodup_iff).mpr hndfeed
  have hxl : x ∈ List.insertionSort postKeyLe (feedVisiblePosts db userId) :=
    hperm.mem_iff.mpr hx
  have hslice : getAllByDatePaginated db userId ⟨some (n + 1), none, some X⟩ =
      ((((List.insertionSort postKeyLe
          (feedVisiblePosts db userId)).dropWhile
            (fun q => q.id != X)).drop 1).take (n + 1)).map (toExtendedPost db) := rfl
  rw [hslice]
  constructor
  · rw [List.length_map]
    exact List.length_take_le _ _
  · intro ep hep
    rcases List.mem_map.mp hep with ⟨p, hpmem, rfl⟩
    have hp := dropWhile_cursor_strict X _ hsorted hndl x hxl hxid p
      (List.mem_of_mem_take hpmem)
    exact hp

/-- Concrete store for the pagination witness: one public author with three
posts at distinct timestamps. -/
def paginationDB : DB :=
  ⟨[⟨1, Visibility.PUBLIC, none⟩],
    [],
    [⟨10, 1, "a", [], none, 3⟩, ⟨11, 1, "b", [], none, 2⟩, ⟨12, 1, "c", [], none, 1⟩],
    [], []⟩

/-- Witness for C2 at `paginationDB`: paging after the newest post (id 10)
with limit 2 returns only strictly older records. -/
theorem getAllByDatePaginated_after_spec_witness :
    ((paginationDB.posts.map Post.id).Nodup ∧
      (⟨10, 1, "a", [], none, 3⟩ : Post) ∈ feedVisiblePosts paginationDB 1) ∧
    ((getAllByDatePaginated paginationDB 1 ⟨some 2, none, some 10⟩).length ≤ 2 ∧
      ∀ ep ∈ getAllByDatePaginated paginationDB 1 ⟨some 2, none, some 10⟩,
        ep.post.id ≠ 10 ∧ postStrictAfter ⟨10, 1, "a", [], none, 3⟩ ep.post) :=
  ⟨⟨by decide, by decide⟩,
    getAllByDatePaginated_after_spec paginationDB 1 10 1 (by decide)
      ⟨10, 1, "a", [], none, 3⟩ (by decide) (by decide)⟩

/-- C1: the visibility resolver `isUserPublicOrFollowed(viewer, author)` is
`true` iff the author exists and is `PUBLIC`, or exists, is `PRIVATE`, and a
follow edge `viewer -> author` exists; in particular it is `false` whenever
the author is `HIDDEN` or absent, regardless of any follow edge. The function
is total (never throws) by construction. Ids are assumed unique in the user
table (primary key). -/
theorem isUserPublicOrFollowed_spec (db : DB) (v a : Nat)
    (hnd : (db.users.map User.id).Nodup) :
    (UserRepository.isUserPublicOrFollowed db v a = true ↔
      ∃ u ∈ db.users, u.id = a ∧
        (u.visibility = Visibility.PUBLIC ∨
          (u.visibility = Visibility.PRIVATE ∧ followEdge db v a))) ∧
    (∀ u ∈ db.users, u.id = a → u.visibility = Visibility.HIDDEN →
      UserRepository.isUserPublicOrFollowed db v a = false) := by
  constructor
  · rcases hfound : db.users.find? (fun u => u.id == a) with _ | u
    · rw [isUserPublicOrFollowed_of_find?_none hfound]
      simp only [Bool.false_eq_true, false_iff]
      rintro ⟨u, hu, hid, -⟩
      have := List.find?_eq_none.mp hfound u hu
      simp [hid] at this
    · have humem : u ∈ db.users := List.mem_of_find?_eq_some hfound
      have huid : u.id = a := by simpa using List.find?_some hfound
      rw [isUserPublicOrFollowed_of_find?_some hfound]
      rcases hvis : u.visibility with _ | _ | _
      · constructor
        · intro _
          exact ⟨u, humem, huid, Or.inl hvis⟩
        · intro _
          rfl
      · have hred : (if (Visibility.PRIVATE == Visibility.PUBLIC) = true then true
            else if (Visibility.PRIVATE == Visibility.HIDDEN) = true then false
            else (db.follows.find?
              (fun f => f.followerId == v && f.followedId == a)).isSome)
            = (db.follows.find?
              (fun f => f.followerId == v && f.followedId == a)).isSome := rfl
        rw [hred, ← followEdge_iff_find?]
        constructor
        · intro h
          exact ⟨u, humem, huid, Or.inr ⟨hvis, h⟩⟩
        · rintro ⟨w, hw, hwid, hc⟩
          obtain rfl : w = u :=
            List.inj_on_of_nodup_map hnd hw humem (by rw [hwid, huid])
          rcases hc with hp | ⟨-, hfollow⟩
          · exact absurd (hp.symm.trans hvis) (by simp)
          · exact hfollow
      · have hred : (if (Visibility.HIDDEN == Visibility.PUBLIC) = true then true
            else if (Visibility.HIDDEN == Visibility.HIDDEN) = true then false
            else (db.follows.find?
              (fun f => f.followerId == v && f.followedId == a)).isSome)
            = false := rfl
        rw [hred]
        simp only [Bool.false_eq_true, false_iff]
        rintro ⟨w, hw, hwid, hc⟩
        obtain rfl : w = u :=
          List.inj_on_of_nodup_map hnd hw humem (by rw [hwid, huid])
        rcases hc with hp | ⟨hp, -⟩ <;> exact absurd (hp.symm.trans hvis) (by simp)
  · intro u hu hid hvis
    rw [isUserPublicOrFollowed_of_find?_some (find?_user_eq_of_nodup hnd hu hid), hvis]
    rfl

/-- Witness for C1 at a concrete store: a hidden author with an existing
follow edge still resolves to `false`, and the iff holds. -/
theorem isUserPublicOrFollowed_spec_witness :
    ((⟨[⟨1, Visibility.PUBLIC, none⟩, ⟨2, Visibility.HIDDEN, none⟩],
        [⟨0, 1, 2⟩], [], [], []⟩ : DB).users.map User.id).Nodup ∧
    UserRepository.isUserPublicOrFollowed
      ⟨[⟨1, Visibility.PUBLIC, none⟩, ⟨2, Visibility.HIDDEN, none⟩],
        [⟨0, 1, 2⟩], [], [], []⟩ 1 2 = false := by
  refine ⟨by decide, ?_⟩
  exact (isUserPublicOrFollowed_spec
    ⟨[⟨1, Visibility.PUBLIC, none⟩, ⟨2, Visibility.HIDDEN, none⟩],
      [⟨0, 1, 2⟩], [], [], []⟩ 1 2 (by decide)).2
    ⟨2, Visibility.HIDDEN, none⟩ (by decide) (by decide) (by decide)

namespace FollowerService

/-- `FollowerServiceImpl.createFollower`: validate both ids, reject
self-follow (conflict), reject a missing followed user (not-found), reject an
existing edge (conflict), else create the edge. State passing: the second
component is the store after the call (`newId` is the primary key the store
generates for the created row). -/
def createFollower (validId : Nat → Bool) (db : DB) (newId followerId followedId : Nat) :
    Except Err Follow × DB :=
  if !(validId followerId && validId followedId) then (.error .validation, db)
  else if followerId == followedId then (.error (.conflict "cannot follow itself"), db)
  else if !(db.users.find? (fun u => u.id == followedId)).isSome then
    (.error (.notFound "followed does not exists"), db)
  else
    match db.follows.find? (fun f => f.followedId == followedId && f.followerId == followerId) with
    | some _ => (.error (.conflict "follow already exist"), db)
    | none =>
      let fl : Follow := ⟨newId, followerId, followedId⟩
      (.ok fl, { db with follows := db.follows ++ [fl] })

/-- `FollowerServiceImpl.deleteFollower`: validate both ids, look the edge up,
fail with not-found when absent, else delete the found row by its id. -/
def deleteFollower (validId : Nat → Bool) (db : DB) (followerId followedId : Nat) :
    Except Err Unit × DB :=
  if !(validId followerId && validId followedId) then (.error .validation, db)
  else
    match db.follows.find? (fun f => f.followedId == followedId && f.followerId == followerId) with
    | none => (.error (.notFound "follow"), db)
    | some fl => (.ok (), { db with follows := db.follows.filter (fun g => g.id != fl.id) })

/-- `FollowerServiceImpl.getAllFollows`: all edges, not-found when none
exist system-wide. -/
def getAllFollows (db : DB) : Except Err (List Follow) :=
  if db.follows.isEmpty then .error (.notFound "follows") else .ok db.follows

end FollowerService

/-- C4: with well-formed ids (validation passes) and referential integrity of
the follow table (every edge points at an existing user), `follow(a,b)` on an
existing edge fails with a Conflict error, `follow(a,a)` always fails with a
Conflict error, `unfollow(a,b)` on a missing edge fails with a NotFound
error, and each failure leaves the store unchanged (the returned store is the
input store). -/
theorem follow_state_machine (validId : Nat → Bool) (db : DB) (a b newId : Nat)
    (hva : validId a = true) (hvb : validId b = true)
    (hfk : ∀ f ∈ db.follows, ∃ u ∈ db.users, u.id = f.followedId) :
    ((∃ f ∈ db.follows, f.followerId = a ∧ f.followedId = b) →
      ∃ m, FollowerService.createFollower validId db newId a b =
        (.error (.conflict m), db)) ∧
    (∃ m, FollowerService.createFollower validId db newId a a =
      (.error (.conflict m), db)) ∧
    ((∀ f ∈ db.follows, ¬(f.followerId = a ∧ f.followedId = b)) →
      FollowerService.deleteFollower validId db a b = (.error (.notFound "follow"), db)) := by
  refine ⟨?_, ?_, ?_⟩
  · rintro ⟨f, hf, hf1, hf2⟩
    by_cases hab : a = b
    · subst hab
      exact ⟨"cannot follow itself", by simp [FollowerService.createFollower, hva]⟩
    · have hexists : (db.users.find? (fun u => u.id == b)).isSome = true := by
        rcases hfk f hf with ⟨u, hu, huid⟩
        rw [List.find?_isSome]
        exact ⟨u, hu, by simp [huid, hf2]⟩
      have hold : (db.follows.find?
          (fun g => g.followedId == b && g.followerId == a)).isSome = true := by
        rw [List.find?_isSome]
        exact ⟨f, hf, by simp [hf1, hf2]⟩
      rcases Option.isSome_iff_exists.mp hold with ⟨g, hg⟩
      exact ⟨"follow already exist",
        by simp [FollowerService.createFollower, hva, hvb, hab, hexists, hg]⟩
  · exact ⟨"cannot follow itself", by simp [FollowerService.createFollower, hva]⟩
  · intro h
    have hnone : db.follows.find?
        (fun g => g.followedId == b && g.followerId == a) = none := by
      rw [List.find?_eq_none]
      intro g hg
      simp only [Bool.and_eq_true, beq_iff_eq, not_and]
      intro h2 h1
      exact h g hg ⟨h1, h2⟩
    simp [FollowerService.deleteFollower, hva, hvb, hnone]

/-- Concrete store for the follow state machine witness. -/
def followDB : DB :=
  ⟨[⟨1, Visibility.PUBLIC, none⟩, ⟨2, Visibility.PUBLIC, none⟩],
    [⟨5, 1, 2⟩], [], [], []⟩

/-- Witness for C4 at `followDB`: user 1 already follows user 2. -/
theorem follow_state_machine_witness :
    ((fun _ : Nat => true) 1 = true ∧ (fun _ : Nat => true) 2 = true ∧
      (∀ f ∈ followDB.follows, ∃ u ∈ followDB.users, u.id = f.followedId) ∧
      (∃ f ∈ followDB.follows, f.followerId = 1 ∧ f.followedId = 2) ∧
      (∀ f ∈ followDB.follows, ¬(f.followerId = 1 ∧ f.followedId = 3))) ∧
    ((∃ m, FollowerService.createFollower (fun _ => true) followDB 9 1 2 =
        (.error (.conflict m), followDB)) ∧
      (∃ m, FollowerService.createFollower (fun _ => true) followDB 9 1 1 =
        (.error (.conflict m), followDB)) ∧
      FollowerService.deleteFollower (fun _ => true) followDB 1 3 =
        (.error (.notFound "follow"), followDB)) := by
  refine ⟨⟨by decide, by decide, by decide, by decide, by decide⟩, ?_, ?_, ?_⟩
  · exact ((follow_state_machine (fun _ => true) followDB 1 2 9 (by decide) (by decide)
      (by decide)).1 (by decide))
  · exact (follow_state_machine (fun _ => true) followDB 1 2 9 (by decide) (by decide)
      (by decide)).2.1
  · exact ((follow_state_machine (fun _ => true) followDB 1 3 9 (by decide) (by decide)
      (by decide)).2.2 (by decide))

namespace PostService

/-- `PostServiceImpl.getLatestPosts`: fetch the paginated feed, fail with
not-found when it is empty, else sign each post's image keys (when any) and
the author's profile picture key (when present). `sign` is the external
presigned-url generator. -/
def getLatestPosts (sign : String → String) (db : DB) (userId : Nat)
    (o : CursorPagination) : Except Err (List ExtendedPost) :=
  let posts := getAllByDatePaginated db userId o
  if posts.isEmpty then .error (.notFound "posts")
  else
    .ok (posts.map (fun ep =>
      { ep with
        post := { ep.post with
          images := if ep.post.images.isEmpty then ep.post.images
            else ep.post.images.map sign }
        author := ep.author.map
          (fun u => { u with profilePicture := u.profilePicture.map sign }) }))

end PostService

/-- C5: a list operation that finds zero matching rows fails with a NotFound
error instead of returning an empty list: `getLatestPosts` over an empty
qualifying set rejects with `NotFoundException('posts')`, and `getAllFollows`
with zero edges system-wide rejects with `NotFoundException('follows')`. -/
theorem empty_results_not_found (sign : String → String) (db : DB) (userId : Nat)
    (o : CursorPagination)
    (hempty : feedVisiblePosts db userId = [])
    (hnof : db.follows = []) :
    PostService.getLatestPosts sign db userId o = .error (.notFound "posts") ∧
    FollowerService.getAllFollows db = .error (.notFound "follows") := by
  constructor
  · unfold PostService.getLatestPosts getAllByDatePaginated
    rw [hempty]
    rw [show List.insertionSort postKeyLe ([] : List Post) = [] from rfl]
    rw [prismaSlice_nil]
    rfl
  · simp [FollowerService.getAllFollows, hnof]

/-- Witness for C5 at a store with one user, no posts and no follows. -/
theorem empty_results_not_found_witness :
    (feedVisiblePosts ⟨[⟨1, Visibility.PUBLIC, none⟩], [], [], [], []⟩ 1 = [] ∧
      (⟨[⟨1, Visibility.PUBLIC, none⟩], [], [], [], []⟩ : DB).follows = []) ∧
    (PostService.getLatestPosts id ⟨[⟨1, Visibility.PUBLIC, none⟩], [], [], [], []⟩ 1
        ⟨some 10, none, none⟩ = .error (.notFound "posts") ∧
      FollowerService.getAllFollows ⟨[⟨1, Visibility.PUBLIC, none⟩], [], [], [], []⟩ =
        .error (.notFound "follows")) :=
  ⟨⟨by decide, by decide⟩,
    empty_results_not_found id ⟨[⟨1, Visibility.PUBLIC, none⟩], [], [], [], []⟩ 1
      ⟨some 10, none, none⟩ (by decide) (by decide)⟩

namespace PostRepository

/-- `PostRepositoryImpl.getByAuthorId`: the author's posts (no ordering
clause in the source) with the joined counts. -/
def getByAuthorId (db : DB) (authorId : Nat) : List ExtendedPost :=
  (db.posts.filter (fun p => p.authorId == authorId)).map (toExtendedPost db)

end PostRepository

namespace PostService

/-- `PostServiceImpl.getPostsByAuthor`: validate, check visibility once up
front (denial raises `InvalidUserException`), fetch the author's posts, fail
with not-found when there are none, else sign image and profile picture
keys. -/
def getPostsByAuthor (sign : String → String) (validId : Nat → Bool) (db : DB)
    (userId authorId : Nat) : Except Err (List ExtendedPost) :=
  if !(validId userId && validId authorId) then .error .validation
  else if !(UserRepository.isUserPublicOrFollowed db userId authorId) then
    .error .invalidUser
  else
    let posts := PostRepository.getByAuthorId db authorId
    if posts.isEmpty then .error (.notFound "authors")
    else
      .ok (posts.map (fun ep =>
        { ep with
          post := { ep.post with
            images := if ep.post.images.isEmpty then ep.post.images
              else ep.post.images.map sign }
          author := ep.author.map
            (fun u => { u with profilePicture := u.profilePicture.map sign }) }))

end PostService

namespace CommentService

/-- `CommentServiceImpl.getAllCommentsFromUser`: validate, check visibility
up front (denial raises `InvalidUserException`), fetch the author's comments
(posts with a parent), fail with not-found when there are none. -/
def getAllCommentsFromUser (validId : Nat → Bool) (db : DB) (userId authorId : Nat) :
    Except Err (List Post) :=
  if !(validId userId && validId authorId) then .error .validation
  else if !(UserRepository.isUserPublicOrFollowed db userId authorId) then
    .error .invalidUser
  else
    let comments := db.posts.filter (fun p => p.authorId == authorId && p.parentPostId.isSome)
    if comments.isEmpty then .error (.notFound "comments") else .ok comments

/-- `CommentServiceImpl.getComment`: validate, look the post up (not-found
when absent), reject a top-level post (`parentPostId` null) with not-found
before the visibility check, then check visibility (denial raises
`InvalidUserException`). -/
def getComment (validId : Nat → Bool) (db : DB) (userId postId : Nat) :
    Except Err Post :=
  if !(validId userId && validId postId) then .error .validation
  else
    match db.posts.find? (fun p => p.id == postId) with
    | none => .error (.notFound "comment")
    | some c =>
      if c.parentPostId.isNone then .error (.notFound "this is not a comment")
      else if !(UserRepository.isUserPublicOrFollowed db userId c.authorId) then
        .error .invalidUser
      else .ok c

end CommentService

namespace ReactionService

/-- `ReactionServiceImpl.getReactionsFromUser`: validate, check visibility up
front — but denial raises `ForbiddenException` in the source (not
`InvalidUserException`) — then fetch the author's reactions, not-found when
there are none. -/
def getReactionsFromUser (validId : Nat → Bool) (db : DB) (userId authorId : Nat) :
    Except Err (List Reaction) :=
  if !(validId userId && validId authorId) then .error .validation
  else if !(UserRepository.isUserPublicOrFollowed db userId authorId) then
    .error .forbidden
  else
    let reactions := db.reactions.filter (fun r => r.authorId == authorId)
    if reactions.isEmpty then .error (.notFound "reactions") else .ok reactions

end ReactionService

/-- Concrete store on which viewer 1 may not view author 2 (private, not
followed) while author 2 has a reaction. -/
def privateAuthorDB : DB :=
  ⟨[⟨1, Visibility.PUBLIC, none⟩, ⟨2, Visibility.PRIVATE, none⟩],
    [], [], [⟨7, 2, 0, ReactionAction.LIKE⟩], []⟩

/-- Counterexample to C6: `getReactionsFromUser` raises `ForbiddenException`,
not the "invalid user" error the claim requires, when the viewer may not
view the author. -/
theorem getReactionsFromUser_forbidden_counterexample :
    ReactionService.getReactionsFromUser (fun _ => true) privateAuthorDB 1 2 =
      .error .forbidden ∧
    ReactionService.getReactionsFromUser (fun _ => true) privateAuthorDB 1 2 ≠
      .error .invalidUser := by
  constructor
  · rfl
  · intro h
    simp [ReactionService.getReactionsFromUser, UserRepository.isUserPublicOrFollowed,
      privateAuthorDB, List.find?] at h

/-- C6 (amended): in every by-author retrieval the permission check runs
first (only validation precedes it) and before any fetch: when the viewer
may not view the author, posts-by-author and comments-by-author fail with
`InvalidUserException`, while reactions-by-author fails with
`ForbiddenException`; in all three the error is independent of the stored
posts/comments/reactions, so nothing is fetched. -/
theorem byAuthor_permission_checked_up_front (sign : String → String)
    (validId : Nat → Bool) (db : DB) (u a : Nat)
    (hvu : validId u = true) (hva : validId a = true)
    (hdeny : UserRepository.isUserPublicOrFollowed db u a = false) :
    PostService.getPostsByAuthor sign validId db u a = .error .invalidUser ∧
    CommentService.getAllCommentsFromUser validId db u a = .error .invalidUser ∧
    ReactionService.getReactionsFromUser validId db u a = .error .forbidden := by
  refine ⟨?_, ?_, ?_⟩
  · simp [PostService.getPostsByAuthor, hvu, hva, hdeny]
  · simp [CommentService.getAllCommentsFromUser, hvu, hva, hdeny]
  · simp [ReactionService.getReactionsFromUser, hvu, hva, hdeny]

/-- Witness for the amended C6 at `privateAuthorDB`. -/
theorem byAuthor_permission_checked_up_front_witness :
    ((fun _ : Nat => true) 1 = true ∧
      UserRepository.isUserPublicOrFollowed privateAuthorDB 1 2 = false) ∧
    (PostService.getPostsByAuthor id (fun _ => true) privateAuthorDB 1 2 =
        .error .invalidUser ∧
      CommentService.getAllCommentsFromUser (fun _ => true) privateAuthorDB 1 2 =
        .error .invalidUser ∧
      ReactionService.getReactionsFromUser (fun _ => true) privateAuthorDB 1 2 =
        .error .forbidden) :=
  ⟨⟨by decide, by decide⟩,
    byAuthor_permission_checked_up_front id (fun _ => true) privateAuthorDB 1 2
      (by decide) (by decide) (by decide)⟩

namespace CommentRepository

/-- `CommentRepositoryImpl.getAllCommentsFromPost`: the comments of a post
with the cursor slice — the source query has NO `orderBy` clause, so the rows
come back in the store's own order. -/
def getAllCommentsFromPost (db : DB) (postId : Nat) (o : CursorPagination) :
    List Post :=
  prismaSlice Post.id o (db.posts.filter (fun p => p.parentPostId == some postId))

end CommentRepository

/-- Store exhibiting the missing comment ordering: two comments on post 0,
stored older-first. -/
def commentsDB : DB :=
  ⟨[⟨1, Visibility.PUBLIC, none⟩],
    [],
    [⟨0, 1, "parent", [], none, 0⟩,
      ⟨1, 1, "older", [], some 0, 1⟩,
      ⟨2, 1, "newer", [], some 0, 2⟩],
    [], []⟩

/-- C8 (failing input): the comment page query returns the rows in store
order — here older-first — which is not the `(createdAt desc, id asc)` order
the claim requires; the source query has no `orderBy` clause at all. -/
theorem getAllCommentsFromPost_not_ordered :
    CommentRepository.getAllCommentsFromPost commentsDB 0 ⟨none, none, none⟩ =
      [⟨1, 1, "older", [], some 0, 1⟩, ⟨2, 1, "newer", [], some 0, 2⟩] ∧
    ¬ List.Sorted postKeyLe
      (CommentRepository.getAllCommentsFromPost commentsDB 0 ⟨none, none, none⟩) := by
  constructor
  · rfl
  · intro h
    have h1 := List.rel_of_sorted_cons h ⟨2, 1, "newer", [], some 0, 2⟩ (by simp)
    unfold postKeyLe at h1
    simp only [] at h1
    omega

/-- C10: `getComment` on an existing top-level post (null `parentPostId`)
fails with `NotFoundException('this is not a comment')` for every store
configuration — in particular regardless of visibility and follow state, so
no visibility check decides the outcome — and a successful `getComment` only
ever returns a post with a parent (a comment). -/
theorem getComment_top_level_spec (validId : Nat → Bool) (db : DB)
    (userId postId : Nat) (p : Post)
    (hvu : validId userId = true) (hvp : validId postId = true)
    (hfind : db.posts.find? (fun q => q.id == postId) = some p)
    (htop : p.parentPostId = none) :
    CommentService.getComment validId db userId postId =
      .error (.notFound "this is not a comment") ∧
    (∀ (db2 : DB) (validId2 : Nat → Bool) (u2 pid2 : Nat) (c : Post),
      CommentService.getComment validId2 db2 u2 pid2 = .ok c →
      c.parentPostId ≠ none) := by
  constructor
  · simp [CommentService.getComment, hvu, hvp, hfind, htop]
  · intro db2 validId2 u2 pid2 c hok hc
    unfold CommentService.getComment at hok
    split at hok
    · exact Except.noConfusion hok
    · split at hok
      · exact Except.noConfusion hok
      · rename_i q hq
        split at hok
        · exact Except.noConfusion hok
        · rename_i hnone
          split at hok
          · exact Except.noConfusion hok
          · obtain rfl : q = c := by
              injection hok
            exact hnone (by rw [hc]; rfl)

/-- Store with one top-level post for the C10 witness. -/
def topLevelDB : DB :=
  ⟨[⟨1, Visibility.PUBLIC, none⟩],
    [],
    [⟨4, 1, "top", [], none, 1⟩],
    [], []⟩

/-- Witness for C10 at `topLevelDB`: post 4 is top-level, so `getComment`
rejects it. -/
theorem getComment_top_level_spec_witness :
    (topLevelDB.posts.find? (fun q => q.id == 4) = some ⟨4, 1, "top", [], none, 1⟩ ∧
      (⟨4, 1, "top", [], none, 1⟩ : Post).parentPostId = none) ∧
    (CommentService.getComment (fun _ => true) topLevelDB 1 4 =
        .error (.notFound "this is not a comment") ∧
      (∀ (db2 : DB) (validId2 : Nat → Bool) (u2 pid2 : Nat) (c : Post),
        CommentService.getComment validId2 db2 u2 pid2 = .ok c →
        c.parentPostId ≠ none)) :=
  ⟨⟨by decide, by decide⟩,
    getComment_top_level_spec (fun _ => true) topLevelDB 1 4
      ⟨4, 1, "top", [], none, 1⟩ (by decide) (by decide) (by decide) (by decide)⟩

/-- Modelled from the spec: the `BodyValidation(PostContentDTO)` middleware
of the create-post route (the `BodyValidation` helper of `@utils` is not part
of the sources here; §6 specifies a validation library producing field
violations). It enforces the `PostContentDTO` decorators visible in the
source: `content` a non-empty string of at most 240 characters, `images`
optional with at most 4 entries of at most 100 characters each. -/
def bodyValidationPostContent (content : String) (images : Option (List String)) : Bool :=
  !content.isEmpty && decide (content.length ≤ 240) &&
    (match images with
     | none => true
     | some l => decide (l.length ≤ 4) && l.all (fun s => decide (s.length ≤ 100)))

/-- The image-signing step of `createPost`: `if (data.images?.length)` the
keys are replaced by their signed urls. -/
def signImages (sign : String → String) : Option (List String) → Option (List String)
  | none => none
  | some l => if l.isEmpty then some l else some (l.map sign)

/-- Signing does not change how many image references a call carries. -/
theorem signImages_getD_length (sign : String → String) (images : Option (List String)) :
    ((signImages sign images).getD []).length = (images.getD []).length := by
  rcases images with _ | l
  · rfl
  · unfold signImages
    rcases h : l.isEmpty with _ | _ <;> simp [h]

namespace PostService

/-- `PostServiceImpl.createPost`: when a non-empty image list is given,
replace each key by its signed url, then create the row (`newId` and
`createdAt` are generated by the store; a missing image list is stored as the
empty array). The service itself performs no validation. -/
def createPost (sign : String → String) (db : DB) (newId createdAt userId : Nat)
    (content : String) (images : Option (List String)) : Post × DB :=
  (⟨newId, userId, content, (signImages sign images).getD [], none, createdAt⟩,
    { db with posts := db.posts ++
        [⟨newId, userId, content, (signImages sign images).getD [], none, createdAt⟩] })

/-- The `POST /post` route: `BodyValidation(PostContentDTO)` middleware, then
`createPost`. A validation failure rejects the request before the service
runs, leaving the store untouched. -/
def createPostRoute (sign : String → String) (db : DB) (newId createdAt userId : Nat)
    (content : String) (images : Option (List String)) : Except Err Post × DB :=
  if bodyValidationPostContent content images then
    let r := createPost sign db newId createdAt userId content images
    (.ok r.1, r.2)
  else (.error .validation, db)

end PostService

/-- C9: a create-post call whose content exceeds 240 characters or whose
image list exceeds 4 entries fails with a validation error and creates
nothing (the store is unchanged), and every post the operation does create
has content of at most 240 characters and at most 4 image references. -/
theorem createPost_bounds (sign : String → String) (db : DB)
    (newId createdAt userId : Nat) (content : String) (images : Option (List String)) :
    ((240 < content.length ∨ (∃ l, images = some l ∧ 4 < l.length)) →
      PostService.createPostRoute sign db newId createdAt userId content images =
        (.error .validation, db)) ∧
    (∀ (p : Post) (db2 : DB),
      PostService.createPostRoute sign db newId createdAt userId content images =
        (.ok p, db2) →
      p.content.length ≤ 240 ∧ p.images.length ≤ 4 ∧ db2.posts = db.posts ++ [p]) := by
  constructor
  · intro h
    have hv : bodyValidationPostContent content images = false := by
      unfold bodyValidationPostContent
      rcases h with h | ⟨l, rfl, hl⟩
      · simp [Nat.not_le.mpr h]
      · simp [Nat.not_le.mpr hl]
    simp [PostService.createPostRoute, hv]
  · intro p db2 hok
    by_cases hv : bodyValidationPostContent content images = true
    · unfold PostService.createPostRoute at hok
      rw [if_pos hv] at hok
      unfold PostService.createPost at hok
      rw [Prod.mk.injEq] at hok
      obtain ⟨h1, h2⟩ := hok
      have hp : p = ⟨newId, userId, content,
          (signImages sign images).getD [], none, createdAt⟩ := by
        injection h1 with h
        exact h.symm
      subst hp
      refine ⟨?_, ?_, ?_⟩
      · unfold bodyValidationPostContent at hv
        simp only [Bool.and_eq_true, decide_eq_true_eq] at hv
        exact hv.1.2
      · show ((signImages sign images).getD []).length ≤ 4
        rw [signImages_getD_length]
        rcases images with _ | l
        · simp
        · unfold bodyValidationPostContent at hv
          simp only [Bool.and_eq_true, decide_eq_true_eq] at hv
          simpa using hv.2.1
      · rw [← h2]
    · rw [Bool.not_eq_true] at hv
      unfold PostService.createPostRoute at hok
      rw [if_neg (by simp [hv])] at hok
      rw [Prod.mk.injEq] at hok
      exact Except.noConfusion hok.1

set_option maxRecDepth 4096 in
/-- Witness for C9: an oversized content and an oversized image list are
rejected with the store unchanged, and a valid call's created post is within
bounds. -/
theorem createPost_bounds_witness :
    (240 < (String.mk (List.replicate 241 (Char.ofNat 97))).length ∧
      PostService.createPostRoute id followDB 9 1 1
          (String.mk (List.replicate 241 (Char.ofNat 97))) none =
        (.error .validation, followDB)) ∧
    (∀ (p : Post) (db2 : DB),
      PostService.createPostRoute id followDB 9 1 1 "hola" (some ["img"]) =
        (.ok p, db2) →
      p.content.length ≤ 240 ∧ p.images.length ≤ 4 ∧ db2.posts = followDB.posts ++ [p]) :=
  ⟨⟨by simp [String.length],
      (createPost_bounds id followDB 9 1 1
          (String.mk (List.replicate 241 (Char.ofNat 97))) none).1
        (Or.inl (by simp [String.length]))⟩,
    (createPost_bounds id followDB 9 1 1 "hola" (some ["img"])).2⟩


namespace UserService

/-- `UserServiceImpl.isUserFollowed`: non-UUID ids resolve to `false`, a user
counts as following themself, otherwise the repository edge lookup
decides. -/
def isUserFollowed (validId : Nat → Bool) (db : DB) (followerID followedID : Nat) : Bool :=
  if !(validId followerID && validId followedID) then false
  else if followerID == followedID then true
  else UserRepository.isUserFollowed db followerID followedID

/-- `UserServiceImpl.checkIfUserExists`: non-UUID ids resolve to `false`,
else the repository lookup decides. -/
def checkIfUserExists (validId : Nat → Bool) (db : DB) (userId : Nat) : Bool :=
  if !(validId userId) then false
  else UserRepository.checkIfUserExists db userId

end UserService

/-- The observable actions of the socket `message` handler, in program
order. `emitMessage rooms …` is `io.to(receiverId).to(senderId).emit`;
`persistMessage m ok` is the `messageService.create` attempt and its
outcome; both error constructors are `socket.emit` of an `error` event back
to the sending socket only (the typed exception's message, or the generic
`Internal server error` fallback of the catch block). -/
inductive SocketEvent where
  | emitMessage (rooms : List Nat) (senderId receiverId : Nat) (content : String)
  | persistMessage (m : Message) (ok : Bool)
  | emitError (e : Err)
  | emitInternalError
  deriving DecidableEq, Repr

/-- Outcome of one `message` event: the emitted events in order, the store
after the call, and whether the handler closed the connection (the source
never does; every exception is caught and turned into an `error` event). -/
structure RelayResult where
  events : List SocketEvent
  db : DB
  connectionClosed : Bool
  deriving DecidableEq, Repr

/-- The `MessageDTO` validation `messageService.create` runs before
persisting: both ids must be UUIDs and the content a non-empty string. -/
def messageValidationOk (validId : Nat → Bool) (m : Message) : Bool :=
  validId m.senderId && validId m.receiverId && !m.content.isEmpty

/-- The `message` handler of `SocketIoServer.initSocketServer`: if the
receiver exists and the sender follows the receiver, emit the message to the
receiver's and the sender's rooms and then persist it; a nonexistent
receiver or a missing follow throws (NotFound / Forbidden), which the catch
block converts into an `error` event to the sender. `persistOk` models
whether the external store accepts the write; a persistence failure after
the emit ends in the generic error event, with the emit not rolled back. -/
def handleMessage (validId : Nat → Bool) (persistOk : Bool) (db : DB)
    (senderId receiverId : Nat) (content : String) : RelayResult :=
  if UserService.checkIfUserExists validId db receiverId then
    if UserService.isUserFollowed validId db senderId receiverId then
      if messageValidationOk validId ⟨senderId, receiverId, content⟩ && persistOk then
        { events := [.emitMessage [receiverId, senderId] senderId receiverId content,
            .persistMessage ⟨senderId, receiverId, content⟩ true],
          db := { db with messages := db.messages ++ [⟨senderId, receiverId, content⟩] },
          connectionClosed := false }
      else
        { events := [.emitMessage [receiverId, senderId] senderId receiverId content,
            .persistMessage ⟨senderId, receiverId, content⟩ false, .emitInternalError],
          db := db,
          connectionClosed := false }
    else
      { events := [.emitError .forbidden], db := db, connectionClosed := false }
  else
    { events := [.emitError (.notFound "user not found")], db := db,
      connectionClosed := false }

/-- C7: whenever the relay succeeds in delivering (receiver exists, follow
check passes), the first event is the emit to the receiver's and the
sender's rooms and the second is the persistence attempt — delivery strictly
precedes persistence, and when persistence fails the already-emitted
delivery still stands at the head of the trace. -/
theorem relay_emit_precedes_persist (validId : Nat → Bool) (persistOk : Bool)
    (db : DB) (senderId receiverId : Nat) (content : String)
    (hex : UserService.checkIfUserExists validId db receiverId = true)
    (hfol : UserService.isUserFollowed validId db senderId receiverId = true) :
    ∃ ok rest,
      (handleMessage validId persistOk db senderId receiverId content).events =
        SocketEvent.emitMessage [receiverId, senderId] senderId receiverId content
          :: SocketEvent.persistMessage ⟨senderId, receiverId, content⟩ ok :: rest := by
  unfold handleMessage
  rw [if_pos hex, if_pos hfol]
  by_cases hp : (messageValidationOk validId ⟨senderId, receiverId, content⟩ && persistOk) = true
  · exact ⟨true, [], by rw [if_pos hp]⟩
  · exact ⟨false, [.emitInternalError], by rw [if_neg hp]⟩

/-- Store for the relay witnesses: user 1 follows user 2. -/
def relayDB : DB :=
  ⟨[⟨1, Visibility.PUBLIC, none⟩, ⟨2, Visibility.PUBLIC, none⟩],
    [⟨5, 1, 2⟩], [], [], []⟩

/-- Witness for C7 at `relayDB`: 1 messages 2, whom they follow. -/
theorem relay_emit_precedes_persist_witness :
    (UserService.checkIfUserExists (fun _ => true) relayDB 2 = true ∧
      UserService.isUserFollowed (fun _ => true) relayDB 1 2 = true) ∧
    (∃ ok rest,
      (handleMessage (fun _ => true) true relayDB 1 2 "hello").events =
        SocketEvent.emitMessage [2, 1] 1 2 "hello"
          :: SocketEvent.persistMessage ⟨1, 2, "hello"⟩ ok :: rest) :=
  ⟨⟨by decide, by decide⟩,
    relay_emit_precedes_persist (fun _ => true) true relayDB 1 2 "hello"
      (by decide) (by decide)⟩

/-- Counterexample to C3 as stated: a self-message with no follow edge at
all. The service's follow check short-circuits `sender == receiver` to
`true`, so the message IS delivered and no error is emitted, although the
sender does not follow the receiver. -/
theorem relay_self_message_counterexample :
    (∀ f ∈ relayDB.follows, ¬(f.followerId = 1 ∧ f.followedId = 1)) ∧
    (handleMessage (fun _ => true) true relayDB 1 1 "hi").events =
      [SocketEvent.emitMessage [1, 1] 1 1 "hi",
        SocketEvent.persistMessage ⟨1, 1, "hi"⟩ true] := by
  constructor
  · decide
  · rfl

/-- C3 (amended): for every relay where the sender does not follow the
receiver AND the sender is not the receiver (the service counts a user as
following themself), nothing is delivered to any room: the trace is exactly
one `error` event back to the sending socket, the store is unchanged, and
the connection is not closed. -/
theorem relay_no_follow_error_only (validId : Nat → Bool) (persistOk : Bool)
    (db : DB) (senderId receiverId : Nat) (content : String)
    (hneq : senderId ≠ receiverId)
    (hnof : ∀ f ∈ db.follows, ¬(f.followerId = senderId ∧ f.followedId = receiverId)) :
    ∃ e, (handleMessage validId persistOk db senderId receiverId content).events =
        [SocketEvent.emitError e] ∧
      (handleMessage validId persistOk db senderId receiverId content).db = db ∧
      (handleMessage validId persistOk db senderId receiverId content).connectionClosed
        = false := by
  have hnone : db.follows.find?
      (fun f => f.followerId == senderId && f.followedId == receiverId) = none := by
    rw [List.find?_eq_none]
    intro f hf
    simp only [Bool.and_eq_true, beq_iff_eq, not_and]
    intro h1 h2
    exact hnof f hf ⟨h1, h2⟩
  have hfol : UserService.isUserFollowed validId db senderId receiverId = false := by
    unfold UserService.isUserFollowed UserRepository.isUserFollowed
    by_cases hv : (validId senderId && validId receiverId) = true
    · rw [hv]
      simp only [Bool.not_true, Bool.false_eq_true, if_false]
      rw [if_neg (by simpa using hneq)]
      rcases hfu : db.users.find? (fun u => u.id == receiverId) with _ | u
      · rw [hfu]
      · rw [hfu, hnone]
        rfl
    · rw [Bool.not_eq_true] at hv
      rw [hv]
      rfl
  by_cases hex : UserService.checkIfUserExists validId db receiverId = true
  · refine ⟨.forbidden, ?_, ?_, ?_⟩ <;>
      · unfold handleMessage
        rw [if_pos hex, if_neg (by simp [hfol])]
  · rw [Bool.not_eq_true] at hex
    refine ⟨.notFound "user not found", ?_, ?_, ?_⟩ <;>
      · unfold handleMessage
        rw [if_neg (by simp [hex])]

/-- Witness for the amended C3 at `relayDB`: 2 does not follow 1. -/
theorem relay_no_follow_error_only_witness :
    ((2 : Nat) ≠ 1 ∧
      (∀ f ∈ relayDB.follows, ¬(f.followerId = 2 ∧ f.followedId = 1))) ∧
    (∃ e, (handleMessage (fun _ => true) true relayDB 2 1 "hi").events =
        [SocketEvent.emitError e] ∧
      (handleMessage (fun _ => true) true relayDB 2 1 "hi").db = relayDB ∧
      (handleMessage (fun _ => true) true relayDB 2 1 "hi").connectionClosed = false) :=
  ⟨⟨by decide, by decide⟩,
    relay_no_follow_error_only (fun _ => true) true relayDB 2 1 "hi"
      (by decide) (by decide)⟩

end Twitter
